import Mathlib

/-!
Verification of the waste-management pallet
(`src/pallets/waste-management/src/lib.rs`).

The pallet keeps three storage items:
  * `WasteDataCount : StorageValue u64` (ValueQuery, so default 0),
  * `WasteDataMap : StorageMap ReportId -> WasteData`,
  * `WasteDataByStatus : StorageMap (WasteStatus, ReportId) -> WasteData`,
and exposes two dispatchables, `create_waste_data` and
`update_waste_status`.

Shallow embedding conventions:
  * machine integers (`u32`, `u64`) are `Nat`; the only place overflow
    matters is `WasteDataCount::get().checked_add(1)`, modelled explicitly
    against `u64MAX`;
  * `T::AccountId` is opaque, modelled as `Nat`; `ensure_signed` is
    modelled by passing the already-authenticated account as an argument
    (origin failure is outside the pallet's own logic);
  * storage maps are functions into `Option`;
  * `deposit_event` appends to an event list carried in the state;
  * each dispatchable body is translated statement by statement into a
    `_body` function returning the (possibly partially written) state
    together with the dispatch result; FRAME executes every dispatchable
    inside a storage transaction and rolls every write back when the call
    returns an error, which the `dispatch` wrapper makes explicit.
-/

namespace WasteManagement

/-- The `WasteStatus` enum of the source. -/
inductive WasteStatus where
  | Reported
  | Collected
  | Transported
  | Utilized
deriving DecidableEq, Repr

/-- Source alias `pub type WasteType = u32`. -/
abbrev WasteType := Nat

/-- Source alias `pub type WasteAmount = u64`. -/
abbrev WasteAmount := Nat

/-- Source alias `pub type ReportId = u64`. -/
abbrev ReportId := Nat

/-- Opaque stand-in for `T::AccountId`. -/
abbrev AccountId := Nat

/-- The `WasteData` struct of the source. -/
structure WasteData where
  report_id : ReportId
  waste_type : WasteType
  waste_amount : WasteAmount
  status : WasteStatus
  location_x : Nat
  location_y : Nat
  reporter : AccountId
deriving DecidableEq, Repr

/-- The `Error<T>` enum of the source. -/
inductive Error where
  | DuplicateReport
  | BoundsOverflow
  | ReportNotFound
deriving DecidableEq, Repr

/-- The `Event<T>` enum of the source. -/
inductive Event where
  | WasteDataCreated (report_id : ReportId) (reporter : AccountId)
  | WasteStatusUpdated (report_id : ReportId) (operator : AccountId)
deriving DecidableEq, Repr

/-- Largest value of a `u64`. -/
def u64MAX : Nat := 18446744073709551615

/-- Model of `u64::checked_add` on in-range operands: `None` exactly when
the mathematical sum leaves the `u64` range. -/
def u64_checked_add (a b : Nat) : Option Nat :=
  if a + b ≤ u64MAX then some (a + b) else none

/-- The pallet's storage (`WasteDataCount`, `WasteDataMap`,
`WasteDataByStatus`) plus the list of deposited events. -/
structure PalletState where
  wasteDataCount : Nat
  wasteDataMap : ReportId → Option WasteData
  wasteDataByStatus : WasteStatus × ReportId → Option WasteData
  events : List Event

/-- Genesis storage: `ValueQuery` count defaults to 0, both maps are
empty, no event has been deposited. -/
def initialState : PalletState :=
  { wasteDataCount := 0
    wasteDataMap := fun _ => none
    wasteDataByStatus := fun _ => none
    events := [] }

/-- Body of `create_waste_data`, statement by statement:
`checked_add` on the count (else `BoundsOverflow`), `WasteDataCount::put`,
construction of the record with status `Reported`,
`WasteDataMap::try_mutate_exists` (ensuring the slot is vacant, else
`DuplicateReport`; on error `try_mutate_exists` writes nothing to the map),
`WasteDataByStatus::insert`, `deposit_event`.  The returned state records
every storage write the body performed before returning. -/
def create_waste_data_body (s : PalletState) (reporter : AccountId)
    (waste_type : WasteType) (waste_amount : WasteAmount)
    (location_x location_y : Nat) : PalletState × Except Error Unit :=
  match u64_checked_add s.wasteDataCount 1 with
  | none => (s, Except.error Error.BoundsOverflow)
  | some report_id =>
    let s1 : PalletState := { s with wasteDataCount := report_id }
    let waste_data : WasteData :=
      { report_id := report_id
        waste_type := waste_type
        waste_amount := waste_amount
        status := WasteStatus.Reported
        location_x := location_x
        location_y := location_y
        reporter := reporter }
    match s1.wasteDataMap report_id with
    | some _ => (s1, Except.error Error.DuplicateReport)
    | none =>
      let map2 := Function.update s1.wasteDataMap report_id (some waste_data)
      let s2 : PalletState := { s1 with wasteDataMap := map2 }
      let idx3 := Function.update s2.wasteDataByStatus (WasteStatus.Reported, report_id) (some waste_data)
      let s3 : PalletState := { s2 with wasteDataByStatus := idx3 }
      let evs4 := s3.events ++ [Event.WasteDataCreated report_id reporter]
      let s4 : PalletState := { s3 with events := evs4 }
      (s4, Except.ok ())

/-- FRAME dispatches every `#[pallet::call]` inside a storage transaction:
when the body returns an error every storage write of the call is rolled
back, so the pre-call state is what remains visible. -/
def dispatch {α : Type} (s : PalletState)
    (body : PalletState × Except Error α) : PalletState × Except Error α :=
  match body with
  | (s1, Except.ok a) => (s1, Except.ok a)
  | (_, Except.error e) => (s, Except.error e)

/-- The `create_waste_data` dispatchable: its body run transactionally. -/
def create_waste_data (s : PalletState) (reporter : AccountId)
    (waste_type : WasteType) (waste_amount : WasteAmount)
    (location_x location_y : Nat) : PalletState × Except Error Unit :=
  dispatch s
    (create_waste_data_body s reporter waste_type waste_amount
      location_x location_y)

/-- Body of `update_waste_status`:
`WasteDataMap::try_mutate` reads the slot (`ReportNotFound` when vacant,
and then `try_mutate` writes nothing), the closure saves `old_status`,
overwrites `status := new_status`, and — only when `old_status !=
new_status` — removes the `(old_status, id)` index entry and inserts the
updated record at `(new_status, id)`; on `Ok` the mutated record is
committed to the map and the event is deposited. -/
def update_waste_status_body (s : PalletState) (operator : AccountId)
    (report_id : ReportId) (new_status : WasteStatus) :
    PalletState × Except Error Unit :=
  match s.wasteDataMap report_id with
  | none => (s, Except.error Error.ReportNotFound)
  | some waste_data0 =>
    let old_status := waste_data0.status
    let waste_data : WasteData := { waste_data0 with status := new_status }
    let idx1 := Function.update (Function.update s.wasteDataByStatus (old_status, report_id) none) (new_status, report_id) (some waste_data)
    let s1 : PalletState :=
      if old_status ≠ new_status then { s with wasteDataByStatus := idx1 }
      else s
    let map2 := Function.update s1.wasteDataMap report_id (some waste_data)
    let s2 : PalletState := { s1 with wasteDataMap := map2 }
    let evs3 := s2.events ++ [Event.WasteStatusUpdated report_id operator]
    let s3 : PalletState := { s2 with events := evs3 }
    (s3, Except.ok ())

/-- The `update_waste_status` dispatchable: its body run transactionally. -/
def update_waste_status (s : PalletState) (operator : AccountId)
    (report_id : ReportId) (new_status : WasteStatus) :
    PalletState × Except Error Unit :=
  dispatch s (update_waste_status_body s operator report_id new_status)

/-- A call to one of the two dispatchables, with its arguments. -/
inductive Op where
  | create (reporter : AccountId) (waste_type : WasteType)
      (waste_amount : WasteAmount) (location_x location_y : Nat)
  | update (operator : AccountId) (report_id : ReportId)
      (new_status : WasteStatus)

/-- State after dispatching one call (a failed call leaves the state
unchanged, so this also generates exactly the states reachable by
successful calls only). -/
def applyOp (s : PalletState) (op : Op) : PalletState :=
  match op with
  | Op.create r wt wa lx ly => (create_waste_data s r wt wa lx ly).1
  | Op.update o id st => (update_waste_status s o id st).1

/-- State after dispatching a sequence of calls. -/
def runOps (s : PalletState) (ops : List Op) : PalletState :=
  match ops with
  | [] => s
  | op :: rest => runOps (applyOp s op) rest

/-- States reachable from genesis by dispatching calls. -/
inductive Reachable : PalletState → Prop where
  | init : Reachable initialState
  | step (s : PalletState) (op : Op) : Reachable s → Reachable (applyOp s op)

/-- The record `create_waste_data` builds on success. -/
def newRecord (s : PalletState) (r : AccountId) (wt : WasteType)
    (wa : WasteAmount) (lx ly : Nat) : WasteData :=
  { report_id := s.wasteDataCount + 1
    waste_type := wt
    waste_amount := wa
    status := WasteStatus.Reported
    location_x := lx
    location_y := ly
    reporter := r }

/-- The state a successful `create_waste_data` leaves behind. -/
def createdState (s : PalletState) (r : AccountId) (wt : WasteType)
    (wa : WasteAmount) (lx ly : Nat) : PalletState :=
  { wasteDataCount := s.wasteDataCount + 1
    wasteDataMap := Function.update s.wasteDataMap (s.wasteDataCount + 1) (some (newRecord s r wt wa lx ly))
    wasteDataByStatus := Function.update s.wasteDataByStatus (WasteStatus.Reported, s.wasteDataCount + 1) (some (newRecord s r wt wa lx ly))
    events := s.events ++ [Event.WasteDataCreated (s.wasteDataCount + 1) r] }

/-- The state a successful `update_waste_status` leaves behind, given the
record found at `report_id`. -/
def updatedState (s : PalletState) (o : AccountId) (id : ReportId)
    (st : WasteStatus) (wd : WasteData) : PalletState :=
  { wasteDataCount := s.wasteDataCount
    wasteDataMap := Function.update s.wasteDataMap id (some { wd with status := st })
    wasteDataByStatus := if wd.status = st then s.wasteDataByStatus else Function.update (Function.update s.wasteDataByStatus (wd.status, id) none) (st, id) (some { wd with status := st })
    events := s.events ++ [Event.WasteStatusUpdated id o] }

lemma create_overflow (s : PalletState) (r : AccountId) (wt : WasteType)
    (wa : WasteAmount) (lx ly : Nat) (h : ¬ s.wasteDataCount + 1 ≤ u64MAX) :
    create_waste_data s r wt wa lx ly = (s, Except.error Error.BoundsOverflow) := by
  simp [create_waste_data, create_waste_data_body, u64_checked_add, h, dispatch]

lemma create_dup (s : PalletState) (r : AccountId) (wt : WasteType)
    (wa : WasteAmount) (lx ly : Nat) (w : WasteData)
    (h : s.wasteDataCount + 1 ≤ u64MAX)
    (hd : s.wasteDataMap (s.wasteDataCount + 1) = some w) :
    create_waste_data s r wt wa lx ly = (s, Except.error Error.DuplicateReport) := by
  simp [create_waste_data, create_waste_data_body, u64_checked_add, h, hd, dispatch]

lemma create_ok (s : PalletState) (r : AccountId) (wt : WasteType)
    (wa : WasteAmount) (lx ly : Nat)
    (h : s.wasteDataCount + 1 ≤ u64MAX)
    (hd : s.wasteDataMap (s.wasteDataCount + 1) = none) :
    create_waste_data s r wt wa lx ly = (createdState s r wt wa lx ly, Except.ok ()) := by
  simp [create_waste_data, create_waste_data_body, u64_checked_add, h, hd, dispatch,
    createdState, newRecord]

lemma update_none (s : PalletState) (o : AccountId) (id : ReportId)
    (st : WasteStatus) (h : s.wasteDataMap id = none) :
    update_waste_status s o id st = (s, Except.error Error.ReportNotFound) := by
  simp [update_waste_status, update_waste_status_body, h, dispatch]

lemma update_ok (s : PalletState) (o : AccountId) (id : ReportId)
    (st : WasteStatus) (wd : WasteData) (h : s.wasteDataMap id = some wd) :
    update_waste_status s o id st = (updatedState s o id st wd, Except.ok ()) := by
  by_cases hst : wd.status = st
  · simp [update_waste_status, update_waste_status_body, h, dispatch, updatedState, hst]
  · simp [update_waste_status, update_waste_status_body, h, dispatch, updatedState, hst]

lemma key_ne_of_snd {a b : WasteStatus} {x y : ReportId} (h : x ≠ y) :
    (a, x) ≠ (b, y) :=
  fun hk => h (congrArg Prod.snd hk)

/-- Storage invariant tying the three items together: every id held in
`WasteDataMap` is bounded by `WasteDataCount`; every stored record is
indexed exactly once in `WasteDataByStatus`, under its own status, with an
identical copy; and every index entry points back to an identical record
of matching status in `WasteDataMap`. -/
def Inv (s : PalletState) : Prop :=
  (∀ id, (s.wasteDataMap id).isSome = true → id ≤ s.wasteDataCount) ∧
  (∀ id rec, s.wasteDataMap id = some rec →
      s.wasteDataByStatus (rec.status, id) = some rec ∧
      ∀ st, st ≠ rec.status → s.wasteDataByStatus (st, id) = none) ∧
  (∀ st id rec, s.wasteDataByStatus (st, id) = some rec →
      s.wasteDataMap id = some rec ∧ rec.status = st)

lemma inv_initial : Inv initialState := by
  refine ⟨?_, ?_, ?_⟩ <;> intro _ <;> simp [initialState]

lemma inv_create (s : PalletState) (r : AccountId) (wt : WasteType)
    (wa : WasteAmount) (lx ly : Nat) (hs : Inv s) :
    Inv (create_waste_data s r wt wa lx ly).1 := by
  obtain ⟨h1, h2, h3⟩ := hs
  by_cases h : s.wasteDataCount + 1 ≤ u64MAX
  · cases hd : s.wasteDataMap (s.wasteDataCount + 1) with
    | some w => rw [create_dup s r wt wa lx ly w h hd]; exact ⟨h1, h2, h3⟩
    | none =>
      rw [create_ok s r wt wa lx ly h hd]
      refine ⟨?_, ?_, ?_⟩
      · intro id hid
        simp only [createdState] at hid ⊢
        rcases eq_or_ne id (s.wasteDataCount + 1) with rfl | hne
        · exact le_refl _
        · rw [Function.update_noteq hne] at hid
          exact Nat.le_succ_of_le (h1 id hid)
      · intro id rec hrec
        simp only [createdState] at hrec ⊢
        rcases eq_or_ne id (s.wasteDataCount + 1) with rfl | hne
        · rw [Function.update_same] at hrec
          injection hrec with hrec
          subst hrec
          constructor
          · simp [newRecord]
          · intro st hst
            have hkey : (st, s.wasteDataCount + 1) ≠
                (WasteStatus.Reported, s.wasteDataCount + 1) := by
              intro hk
              exact hst (congrArg Prod.fst hk)
            rw [Function.update_noteq hkey]
            cases hb : s.wasteDataByStatus (st, s.wasteDataCount + 1) with
            | none => rfl
            | some rec0 =>
              have := (h3 st (s.wasteDataCount + 1) rec0 hb).1
              rw [hd] at this
              exact absurd this (by simp)
        · rw [Function.update_noteq hne] at hrec
          constructor
          · rw [Function.update_noteq (key_ne_of_snd hne)]
            exact (h2 id rec hrec).1
          · intro st hst
            rw [Function.update_noteq (key_ne_of_snd hne)]
            exact (h2 id rec hrec).2 st hst
      · intro st id rec hb
        simp only [createdState] at hb ⊢
        by_cases hk : (st, id) = (WasteStatus.Reported, s.wasteDataCount + 1)
        · rw [hk, Function.update_same] at hb
          injection hb with hb
          have hid : id = s.wasteDataCount + 1 := congrArg Prod.snd hk
          have hst : st = WasteStatus.Reported := congrArg Prod.fst hk
          subst hb hid hst
          exact ⟨by rw [Function.update_same], rfl⟩
        · rw [Function.update_noteq hk] at hb
          obtain ⟨hm, hstat⟩ := h3 st id rec hb
          have hne : id ≠ s.wasteDataCount + 1 := by
            intro he
            rw [he, hd] at hm
            exact absurd hm (by simp)
          exact ⟨by rw [Function.update_noteq hne]; exact hm, hstat⟩
  · rw [create_overflow s r wt wa lx ly h]
    exact ⟨h1, h2, h3⟩

lemma key_ne_of_fst {a b : WasteStatus} {x y : ReportId} (h : a ≠ b) :
    (a, x) ≠ (b, y) :=
  fun hk => h (congrArg Prod.fst hk)

lemma inv_update (s : PalletState) (o : AccountId) (id : ReportId)
    (st : WasteStatus) (hs : Inv s) :
    Inv (update_waste_status s o id st).1 := by
  obtain ⟨h1, h2, h3⟩ := hs
  cases hmap : s.wasteDataMap id with
  | none => rw [update_none s o id st hmap]; exact ⟨h1, h2, h3⟩
  | some wd =>
    rw [update_ok s o id st wd hmap]
    by_cases hst : wd.status = st
    · subst hst
      have hbs : (updatedState s o id wd.status wd).wasteDataByStatus =
          s.wasteDataByStatus := by
        simp [updatedState]
      have hm : (updatedState s o id wd.status wd).wasteDataMap =
          Function.update s.wasteDataMap id (some wd) := rfl
      have hc : (updatedState s o id wd.status wd).wasteDataCount =
          s.wasteDataCount := rfl
      refine ⟨?_, ?_, ?_⟩
      · intro id2 hid2
        rw [hm] at hid2
        rw [hc]
        rcases eq_or_ne id2 id with rfl | hne
        · exact h1 id2 (by rw [hmap]; rfl)
        · rw [Function.update_noteq hne] at hid2
          exact h1 id2 hid2
      · intro id2 rec hrec
        rw [hm] at hrec
        rw [hbs]
        rcases eq_or_ne id2 id with rfl | hne
        · rw [Function.update_same] at hrec
          injection hrec with hrec
          subst hrec
          exact h2 id2 wd hmap
        · rw [Function.update_noteq hne] at hrec
          exact h2 id2 rec hrec
      · intro st2 id2 rec hb
        rw [hbs] at hb
        rw [hm]
        obtain ⟨hm2, hstat⟩ := h3 st2 id2 rec hb
        rcases eq_or_ne id2 id with rfl | hne
        · rw [hmap] at hm2
          injection hm2 with hm2
          subst hm2
          exact ⟨by rw [Function.update_same], hstat⟩
        · rw [Function.update_noteq hne]
          exact ⟨hm2, hstat⟩
    · have hbs : (updatedState s o id st wd).wasteDataByStatus =
          Function.update (Function.update s.wasteDataByStatus (wd.status, id) none) (st, id) (some { wd with status := st }) := by
        simp [updatedState, hst]
      have hm : (updatedState s o id st wd).wasteDataMap =
          Function.update s.wasteDataMap id (some { wd with status := st }) := rfl
      have hc : (updatedState s o id st wd).wasteDataCount =
          s.wasteDataCount := rfl
      refine ⟨?_, ?_, ?_⟩
      · intro id2 hid2
        rw [hm] at hid2
        rw [hc]
        rcases eq_or_ne id2 id with rfl | hne
        · exact h1 id2 (by rw [hmap]; rfl)
        · rw [Function.update_noteq hne] at hid2
          exact h1 id2 hid2
      · intro id2 rec hrec
        rw [hm] at hrec
        rw [hbs]
        rcases eq_or_ne id2 id with rfl | hne
        · rw [Function.update_same] at hrec
          injection hrec with hrec
          subst hrec
          constructor
          · simp
          · intro st2 hst2
            have hst2s : st2 ≠ st := by
              simpa using hst2
            rw [Function.update_noteq (key_ne_of_fst hst2s)]
            by_cases hk2 : st2 = wd.status
            · subst hk2
              rw [Function.update_same]
            · rw [Function.update_noteq (key_ne_of_fst hk2)]
              exact (h2 id2 wd hmap).2 st2 hk2
        · rw [Function.update_noteq hne] at hrec
          constructor
          · rw [Function.update_noteq (key_ne_of_snd hne),
              Function.update_noteq (key_ne_of_snd hne)]
            exact (h2 id2 rec hrec).1
          · intro st2 hst2
            rw [Function.update_noteq (key_ne_of_snd hne),
              Function.update_noteq (key_ne_of_snd hne)]
            exact (h2 id2 rec hrec).2 st2 hst2
      · intro st2 id2 rec hb
        rw [hbs] at hb
        rw [hm]
        by_cases hk : (st2, id2) = (st, id)
        · rw [hk, Function.update_same] at hb
          injection hb with hb
          have hid2 : id2 = id := congrArg Prod.snd hk
          have hs2 : st2 = st := congrArg Prod.fst hk
          subst hb hid2 hs2
          exact ⟨by rw [Function.update_same], rfl⟩
        · rw [Function.update_noteq hk] at hb
          by_cases hk2 : (st2, id2) = (wd.status, id)
          · rw [hk2, Function.update_same] at hb
            exact absurd hb (by simp)
          · rw [Function.update_noteq hk2] at hb
            obtain ⟨hm2, hstat⟩ := h3 st2 id2 rec hb
            have hne2 : id2 ≠ id := by
              intro he
              rw [he, hmap] at hm2
              injection hm2 with hv
              apply hk2
              rw [he, ← hstat, hv]
            rw [Function.update_noteq hne2]
            exact ⟨hm2, hstat⟩

lemma inv_applyOp (s : PalletState) (op : Op) (hs : Inv s) :
    Inv (applyOp s op) := by
  cases op with
  | create r wt wa lx ly => exact inv_create s r wt wa lx ly hs
  | update o id st => exact inv_update s o id st hs

lemma reachable_inv (s : PalletState) (h : Reachable s) : Inv s := by
  induction h with
  | init => exact inv_initial
  | step s op _ ih => exact inv_applyOp s op ih

lemma count_le_applyOp (s : PalletState) (op : Op) :
    s.wasteDataCount ≤ (applyOp s op).wasteDataCount := by
  cases op with
  | create r wt wa lx ly =>
    by_cases h : s.wasteDataCount + 1 ≤ u64MAX
    · cases hd : s.wasteDataMap (s.wasteDataCount + 1) with
      | some w => simp [applyOp, create_dup s r wt wa lx ly w h hd]
      | none =>
        rw [applyOp, create_ok s r wt wa lx ly h hd]
        exact Nat.le_succ _
    · simp [applyOp, create_overflow s r wt wa lx ly h]
  | update o id st =>
    cases hmap : s.wasteDataMap id with
    | none => simp [applyOp, update_none s o id st hmap]
    | some wd => simp [applyOp, update_ok s o id st wd hmap, updatedState]

lemma create_trichotomy (s : PalletState) (r : AccountId) (wt : WasteType)
    (wa : WasteAmount) (lx ly : Nat) :
    (¬ s.wasteDataCount + 1 ≤ u64MAX ∧
      create_waste_data s r wt wa lx ly = (s, Except.error Error.BoundsOverflow)) ∨
    ((∃ w, s.wasteDataMap (s.wasteDataCount + 1) = some w) ∧
      create_waste_data s r wt wa lx ly = (s, Except.error Error.DuplicateReport)) ∨
    (s.wasteDataCount + 1 ≤ u64MAX ∧ s.wasteDataMap (s.wasteDataCount + 1) = none ∧
      create_waste_data s r wt wa lx ly = (createdState s r wt wa lx ly, Except.ok ())) := by
  by_cases h : s.wasteDataCount + 1 ≤ u64MAX
  · cases hd : s.wasteDataMap (s.wasteDataCount + 1) with
    | some w => exact Or.inr (Or.inl ⟨⟨w, rfl⟩, create_dup s r wt wa lx ly w h hd⟩)
    | none => exact Or.inr (Or.inr ⟨h, rfl, create_ok s r wt wa lx ly h hd⟩)
  · exact Or.inl ⟨h, create_overflow s r wt wa lx ly h⟩

/-- Ids handed out by the successful `create_waste_data` calls of a call
sequence, in dispatch order (the id a successful create assigns is
`WasteDataCount + 1` read at entry; failed calls assign nothing). -/
def createdIds : PalletState → List Op → List ReportId
  | _, [] => []
  | s, Op.create r wt wa lx ly :: rest =>
    match create_waste_data s r wt wa lx ly with
    | (s2, Except.ok _) => (s.wasteDataCount + 1) :: createdIds s2 rest
    | (s2, Except.error _) => createdIds s2 rest
  | s, Op.update o id st :: rest => createdIds (update_waste_status s o id st).1 rest

lemma createdIds_chain (ops : List Op) : ∀ s : PalletState,
    List.Chain' (· < ·) (createdIds s ops) ∧
    ∀ x ∈ createdIds s ops, s.wasteDataCount < x := by
  induction ops with
  | nil => intro s; simp [createdIds]
  | cons op rest ih =>
    intro s
    cases op with
    | update o id st =>
      obtain ⟨hch, hlb⟩ := ih (update_waste_status s o id st).1
      have hle : s.wasteDataCount ≤ (update_waste_status s o id st).1.wasteDataCount :=
        count_le_applyOp s (Op.update o id st)
      refine ⟨hch, fun x hx => lt_of_le_of_lt hle (hlb x hx)⟩
    | create r wt wa lx ly =>
      rcases create_trichotomy s r wt wa lx ly with ⟨_, heq⟩ | ⟨_, heq⟩ | ⟨_, _, heq⟩
      · obtain ⟨hch, hlb⟩ := ih (create_waste_data s r wt wa lx ly).1
        rw [heq] at hch hlb
        constructor
        · simpa [createdIds, heq] using hch
        · simpa [createdIds, heq] using hlb
      · obtain ⟨hch, hlb⟩ := ih (create_waste_data s r wt wa lx ly).1
        rw [heq] at hch hlb
        constructor
        · simpa [createdIds, heq] using hch
        · simpa [createdIds, heq] using hlb
      · obtain ⟨hch, hlb⟩ := ih (create_waste_data s r wt wa lx ly).1
        rw [heq] at hch hlb
        have hch2 : List.Chain' (· < ·) (createdIds (createdState s r wt wa lx ly) rest) := by
          simpa using hch
        have hlb2 : ∀ x ∈ createdIds (createdState s r wt wa lx ly) rest,
            s.wasteDataCount + 1 < x := by
          intro x hx
          simpa [createdState] using hlb x (by simpa using hx)
        constructor
        · simp only [createdIds, heq]
          rw [List.chain'_cons']
          refine ⟨?_, hch2⟩
          intro y hy
          exact hlb2 y (List.mem_of_mem_head? hy)
        · simp only [createdIds, heq]
          intro x hx
          rcases List.mem_cons.mp hx with rfl | hx2
          · exact Nat.lt_succ_self _
          · exact lt_trans (Nat.lt_succ_self _) (hlb2 x hx2)

/-- All fields of a record other than `status` agree. -/
def SameCore (a b : WasteData) : Prop :=
  a.report_id = b.report_id ∧ a.waste_type = b.waste_type ∧
  a.waste_amount = b.waste_amount ∧ a.location_x = b.location_x ∧
  a.location_y = b.location_y ∧ a.reporter = b.reporter

lemma sameCore_refl (a : WasteData) : SameCore a a :=
  ⟨rfl, rfl, rfl, rfl, rfl, rfl⟩

lemma sameCore_trans {a b c : WasteData} (h1 : SameCore a b) (h2 : SameCore b c) :
    SameCore a c := by
  obtain ⟨x1, x2, x3, x4, x5, x6⟩ := h1
  obtain ⟨y1, y2, y3, y4, y5, y6⟩ := h2
  exact ⟨x1.trans y1, x2.trans y2, x3.trans y3, x4.trans y4, x5.trans y5, x6.trans y6⟩

lemma update_preserves_core (s : PalletState) (o : AccountId) (rid : ReportId)
    (st : WasteStatus) (id : ReportId) (rec : WasteData)
    (h : s.wasteDataMap id = some rec) :
    ∃ rec2, (update_waste_status s o rid st).1.wasteDataMap id = some rec2 ∧
      SameCore rec2 rec := by
  cases hmap : s.wasteDataMap rid with
  | none =>
    rw [update_none s o rid st hmap]
    exact ⟨rec, h, sameCore_refl rec⟩
  | some wd =>
    rw [update_ok s o rid st wd hmap]
    simp only [updatedState]
    rcases eq_or_ne id rid with rfl | hne
    · rw [h] at hmap
      injection hmap with hv
      subst hv
      exact ⟨{ rec with status := st }, by rw [Function.update_same],
        ⟨rfl, rfl, rfl, rfl, rfl, rfl⟩⟩
    · rw [Function.update_noteq hne]
      exact ⟨rec, h, sameCore_refl rec⟩

/-- Whether an `Op` is an `update_waste_status` call. -/
def Op.isUpdateOp : Op → Prop
  | Op.update _ _ _ => True
  | _ => False

lemma runOps_updates_preserve_core (ops : List Op) : ∀ (s : PalletState)
    (id : ReportId) (rec : WasteData), (∀ op ∈ ops, op.isUpdateOp) →
    s.wasteDataMap id = some rec →
    ∃ rec2, (runOps s ops).wasteDataMap id = some rec2 ∧ SameCore rec2 rec := by
  induction ops with
  | nil =>
    intro s id rec _ h
    exact ⟨rec, h, sameCore_refl rec⟩
  | cons op rest ih =>
    intro s id rec hall h
    cases op with
    | create r wt wa lx ly =>
      exact absurd (hall _ (List.mem_cons_self _ _)) (by simp [Op.isUpdateOp])
    | update o rid st =>
      obtain ⟨rec1, h1, hc1⟩ := update_preserves_core s o rid st id rec h
      obtain ⟨rec2, h2, hc2⟩ :=
        ih (applyOp s (Op.update o rid st)) id rec1
          (fun op2 hop => hall op2 (List.mem_cons_of_mem _ hop))
          (by simpa [applyOp] using h1)
      exact ⟨rec2, by simpa [runOps] using h2, sameCore_trans hc2 hc1⟩

/-- Reachable example state: one record created by account 7 with
`waste_type = 1`, `waste_amount = 100`, location `(5, 5)`. -/
def stateA : PalletState := applyOp initialState (Op.create 7 1 100 5 5)

/-- The record stored in `stateA` under id 1. -/
def recA : WasteData :=
  { report_id := 1
    waste_type := 1
    waste_amount := 100
    status := WasteStatus.Reported
    location_x := 5
    location_y := 5
    reporter := 7 }

lemma reachableA : Reachable stateA :=
  Reachable.step initialState (Op.create 7 1 100 5 5) Reachable.init

/-- State whose report counter sits at the largest `u64`, where
`checked_add` fails. -/
def maxState : PalletState := { initialState with wasteDataCount := u64MAX }

/-- C1: in every state reachable by dispatching `create_waste_data` and
`update_waste_status` calls, every `report_id` present in `WasteDataMap`
has exactly one `WasteDataByStatus` entry — under the key
`(record.status, report_id)` and holding an identical record — and
dispatching either operation from such a state preserves this. -/
theorem index_agreement (s : PalletState) (h : Reachable s) :
    (∀ id rec, s.wasteDataMap id = some rec →
        s.wasteDataByStatus (rec.status, id) = some rec ∧
        ∀ st, st ≠ rec.status → s.wasteDataByStatus (st, id) = none) ∧
    ∀ op id rec, (applyOp s op).wasteDataMap id = some rec →
        (applyOp s op).wasteDataByStatus (rec.status, id) = some rec ∧
        ∀ st, st ≠ rec.status → (applyOp s op).wasteDataByStatus (st, id) = none :=
  ⟨(reachable_inv s h).2.1,
    fun op => (reachable_inv _ (Reachable.step s op h)).2.1⟩

theorem index_agreement_witness :
    stateA.wasteDataByStatus (WasteStatus.Reported, 1) = some recA ∧
    stateA.wasteDataByStatus (WasteStatus.Collected, 1) = none := by
  have h := (index_agreement stateA reachableA).1 1 recA (by rfl)
  exact ⟨h.1, h.2 WasteStatus.Collected (by decide)⟩

/-- C2: in every reachable state every key `(status, id)` present in
`WasteDataByStatus` is matched by a `WasteDataMap` record at `id` whose
`status` field equals that status, and dispatching either operation
preserves this. -/
theorem no_orphan_index_entries (s : PalletState) (h : Reachable s) :
    (∀ st id rec, s.wasteDataByStatus (st, id) = some rec →
        ∃ rec2, s.wasteDataMap id = some rec2 ∧ rec2.status = st) ∧
    ∀ op st id rec, (applyOp s op).wasteDataByStatus (st, id) = some rec →
        ∃ rec2, (applyOp s op).wasteDataMap id = some rec2 ∧ rec2.status = st := by
  constructor
  · intro st id rec hb
    obtain ⟨hm, hs2⟩ := (reachable_inv s h).2.2 st id rec hb
    exact ⟨rec, hm, hs2⟩
  · intro op st id rec hb
    obtain ⟨hm, hs2⟩ := (reachable_inv _ (Reachable.step s op h)).2.2 st id rec hb
    exact ⟨rec, hm, hs2⟩

theorem no_orphan_index_entries_witness :
    ∃ rec2, stateA.wasteDataMap 1 = some rec2 ∧
      rec2.status = WasteStatus.Reported :=
  (no_orphan_index_entries stateA reachableA).1 WasteStatus.Reported 1 recA (by rfl)

/-- C3: along any call sequence the ids assigned by successful
`create_waste_data` calls are strictly increasing and pairwise distinct;
a successful create allocates exactly `count + 1` (the new counter value,
also the `report_id` of the record it stores), and no operation ever
decreases `WasteDataCount`. -/
theorem id_allocation (s : PalletState) (ops : List Op) :
    List.Chain' (· < ·) (createdIds s ops) ∧
    List.Pairwise (· ≠ ·) (createdIds s ops) ∧
    (∀ r wt wa lx ly, (create_waste_data s r wt wa lx ly).2 = Except.ok () →
        (create_waste_data s r wt wa lx ly).1.wasteDataCount = s.wasteDataCount + 1 ∧
        (create_waste_data s r wt wa lx ly).1.wasteDataMap (s.wasteDataCount + 1) =
          some (newRecord s r wt wa lx ly)) ∧
    ∀ op, s.wasteDataCount ≤ (applyOp s op).wasteDataCount := by
  have hch := (createdIds_chain ops s).1
  refine ⟨hch, ?_, ?_, count_le_applyOp s⟩
  · exact (List.chain'_iff_pairwise.mp hch).imp (fun hlt => Nat.ne_of_lt hlt)
  · intro r wt wa lx ly hok
    rcases create_trichotomy s r wt wa lx ly with ⟨_, heq⟩ | ⟨_, heq⟩ | ⟨_, _, heq⟩
    · rw [heq] at hok; exact absurd hok (by simp)
    · rw [heq] at hok; exact absurd hok (by simp)
    · rw [heq]
      exact ⟨rfl, by simp [createdState]⟩

theorem id_allocation_witness :
    (create_waste_data initialState 7 1 100 5 5).1.wasteDataCount =
      initialState.wasteDataCount + 1 ∧
    (create_waste_data initialState 7 1 100 5 5).1.wasteDataMap
        (initialState.wasteDataCount + 1) =
      some (newRecord initialState 7 1 100 5 5) :=
  (id_allocation initialState []).2.2.1 7 1 100 5 5 (by rfl)

/-- C4: updating a stored report to the status it already has leaves
`WasteDataByStatus` literally unchanged (the remove/insert pair is
skipped), yet the call succeeds and still deposits the
`WasteStatusUpdated` event. -/
theorem same_status_update_noop (s : PalletState) (o : AccountId)
    (id : ReportId) (rec : WasteData) (h : s.wasteDataMap id = some rec)
    (st : WasteStatus) (hst : rec.status = st) :
    (update_waste_status s o id st).1.wasteDataByStatus = s.wasteDataByStatus ∧
    (update_waste_status s o id st).2 = Except.ok () ∧
    (update_waste_status s o id st).1.events =
      s.events ++ [Event.WasteStatusUpdated id o] := by
  subst hst
  rw [update_ok s o id rec.status rec h]
  exact ⟨by simp [updatedState], rfl, rfl⟩

theorem same_status_update_noop_witness :
    (update_waste_status stateA 9 1 WasteStatus.Reported).1.wasteDataByStatus =
      stateA.wasteDataByStatus ∧
    (update_waste_status stateA 9 1 WasteStatus.Reported).2 = Except.ok () ∧
    (update_waste_status stateA 9 1 WasteStatus.Reported).1.events =
      stateA.events ++ [Event.WasteStatusUpdated 1 9] :=
  same_status_update_noop stateA 9 1 recA (by rfl) WasteStatus.Reported (by rfl)

/-- C5: any sequence of `update_waste_status` calls leaves every stored
record's `report_id`, `waste_type`, `waste_amount`, `location_x`,
`location_y` and `reporter` fields unchanged; moreover the record a
successful create stores carries the creator as `reporter`, so `reporter`
stays the creator's identity forever. -/
theorem only_status_mutable (s : PalletState) (ops : List Op)
    (hops : ∀ op ∈ ops, op.isUpdateOp) (id : ReportId) (rec : WasteData)
    (h : s.wasteDataMap id = some rec) :
    (∃ rec2, (runOps s ops).wasteDataMap id = some rec2 ∧ SameCore rec2 rec) ∧
    ∀ r wt wa lx ly, (create_waste_data s r wt wa lx ly).2 = Except.ok () →
      ∃ rec3, (create_waste_data s r wt wa lx ly).1.wasteDataMap
          (s.wasteDataCount + 1) = some rec3 ∧ rec3.reporter = r := by
  constructor
  · exact runOps_updates_preserve_core ops s id rec hops h
  · intro r wt wa lx ly hok
    rcases create_trichotomy s r wt wa lx ly with ⟨_, heq⟩ | ⟨_, heq⟩ | ⟨_, _, heq⟩
    · rw [heq] at hok; exact absurd hok (by simp)
    · rw [heq] at hok; exact absurd hok (by simp)
    · rw [heq]
      exact ⟨newRecord s r wt wa lx ly, by simp [createdState], rfl⟩

theorem only_status_mutable_witness :
    (∃ rec2, (runOps stateA [Op.update 8 1 WasteStatus.Collected]).wasteDataMap 1 =
        some rec2 ∧ SameCore rec2 recA) ∧
    ∀ r wt wa lx ly, (create_waste_data stateA r wt wa lx ly).2 = Except.ok () →
      ∃ rec3, (create_waste_data stateA r wt wa lx ly).1.wasteDataMap
          (stateA.wasteDataCount + 1) = some rec3 ∧ rec3.reporter = r :=
  only_status_mutable stateA [Op.update 8 1 WasteStatus.Collected]
    (by intro op hop; simp only [List.mem_singleton] at hop; subst hop; trivial)
    1 recA (by rfl)

/-- C6: `update_waste_status` fails with `ReportNotFound` exactly when no
record exists at the requested id, and in that case the whole state —
`WasteDataCount`, `WasteDataMap`, `WasteDataByStatus` and the event list —
is left untouched. -/
theorem update_missing_report (s : PalletState) (o : AccountId)
    (id : ReportId) (st : WasteStatus) :
    ((update_waste_status s o id st).2 = Except.error Error.ReportNotFound ↔
      s.wasteDataMap id = none) ∧
    (s.wasteDataMap id = none →
      update_waste_status s o id st = (s, Except.error Error.ReportNotFound)) := by
  constructor
  · constructor
    · intro he
      cases hmap : s.wasteDataMap id with
      | none => rfl
      | some wd =>
        rw [update_ok s o id st wd hmap] at he
        exact absurd he (by simp)
    · intro hn
      rw [update_none s o id st hn]
  · intro hn
    exact update_none s o id st hn

theorem update_missing_report_witness :
    update_waste_status initialState 3 999 WasteStatus.Collected =
      (initialState, Except.error Error.ReportNotFound) :=
  (update_missing_report initialState 3 999 WasteStatus.Collected).2 (by rfl)

/-- C7: whenever `create_waste_data` returns an error, the dispatched
call leaves the whole state — `WasteDataCount`, `WasteDataMap`,
`WasteDataByStatus` and the event list — exactly as it was (FRAME rolls
the call's storage writes back on error). -/
theorem create_error_atomicity (s : PalletState) (r : AccountId)
    (wt : WasteType) (wa : WasteAmount) (lx ly : Nat) (e : Error)
    (h : (create_waste_data s r wt wa lx ly).2 = Except.error e) :
    (create_waste_data s r wt wa lx ly).1 = s := by
  rcases create_trichotomy s r wt wa lx ly with ⟨_, heq⟩ | ⟨_, heq⟩ | ⟨_, _, heq⟩
  · rw [heq]
  · rw [heq]
  · rw [heq] at h
    exact absurd h (by simp)

theorem create_error_atomicity_witness :
    (create_waste_data maxState 0 0 0 0 0).1 = maxState :=
  create_error_atomicity maxState 0 0 0 0 0 Error.BoundsOverflow (by rfl)

/-- C8 counterexample: the first `create_waste_data` on the empty store
does not return the allocated `ReportId` — its success value is `()`
(the dispatchable returns `Ok(().into())`, of type
`DispatchResultWithPostInfo`, which carries no id); the allocated id 1
reaches the caller only inside the `WasteDataCreated` event. -/
theorem create_returns_unit_not_id :
    (create_waste_data initialState 7 1 100 5 5).2 = Except.ok () ∧
    (create_waste_data initialState 7 1 100 5 5).1.events =
      [Event.WasteDataCreated 1 7] :=
  ⟨rfl, rfl⟩

/-- C8 (amended): on success `create_waste_data` returns `Ok(())`, and
the allocated id `count + 1` — id 1 for the first create on an empty
store — is delivered to the caller via the `WasteDataCreated` event. -/
theorem create_success_value_and_event (s : PalletState) (r : AccountId)
    (wt : WasteType) (wa : WasteAmount) (lx ly : Nat)
    (h : s.wasteDataCount + 1 ≤ u64MAX)
    (hd : s.wasteDataMap (s.wasteDataCount + 1) = none) :
    (create_waste_data s r wt wa lx ly).2 = Except.ok () ∧
    (create_waste_data s r wt wa lx ly).1.events =
      s.events ++ [Event.WasteDataCreated (s.wasteDataCount + 1) r] := by
  rw [create_ok s r wt wa lx ly h hd]
  exact ⟨rfl, rfl⟩

theorem create_success_value_and_event_witness :
    (create_waste_data initialState 7 1 100 5 5).2 = Except.ok () ∧
    (create_waste_data initialState 7 1 100 5 5).1.events =
      initialState.events ++
        [Event.WasteDataCreated (initialState.wasteDataCount + 1) 7] :=
  create_success_value_and_event initialState 7 1 100 5 5 (by decide) (by rfl)

/-- C9: `update_waste_status` succeeds on every stored report for every
target status, with no legality or ordering check — the record simply
lands on the requested status, so all four states are mutually
reachable — and every record a successful create stores starts in status
`Reported`. -/
theorem unrestricted_status_transitions (s : PalletState) (o : AccountId)
    (id : ReportId) (st : WasteStatus) (rec : WasteData)
    (h : s.wasteDataMap id = some rec) :
    ((update_waste_status s o id st).2 = Except.ok () ∧
      (update_waste_status s o id st).1.wasteDataMap id =
        some { rec with status := st }) ∧
    ∀ r wt wa lx ly, (create_waste_data s r wt wa lx ly).2 = Except.ok () →
      ∃ rec2, (create_waste_data s r wt wa lx ly).1.wasteDataMap
          (s.wasteDataCount + 1) = some rec2 ∧
        rec2.status = WasteStatus.Reported := by
  constructor
  · rw [update_ok s o id st rec h]
    exact ⟨rfl, by simp [updatedState]⟩
  · intro r wt wa lx ly hok
    rcases create_trichotomy s r wt wa lx ly with ⟨_, heq⟩ | ⟨_, heq⟩ | ⟨_, _, heq⟩
    · rw [heq] at hok; exact absurd hok (by simp)
    · rw [heq] at hok; exact absurd hok (by simp)
    · rw [heq]
      exact ⟨newRecord s r wt wa lx ly, by simp [createdState], rfl⟩

theorem unrestricted_status_transitions_witness :
    (update_waste_status stateA 4 1 WasteStatus.Utilized).2 = Except.ok () ∧
    (update_waste_status stateA 4 1 WasteStatus.Utilized).1.wasteDataMap 1 =
      some { recA with status := WasteStatus.Utilized } :=
  (unrestricted_status_transitions stateA 4 1 WasteStatus.Utilized recA (by rfl)).1

/-- C10: in every reachable state every id present in `WasteDataMap` is
at most `WasteDataCount`, so the freshly allocated id `count + 1` is
never occupied and `create_waste_data` can never fail with
`DuplicateReport`. -/
theorem duplicate_report_unreachable (s : PalletState) (h : Reachable s) :
    (∀ id, (s.wasteDataMap id).isSome = true → id ≤ s.wasteDataCount) ∧
    ∀ r wt wa lx ly, (create_waste_data s r wt wa lx ly).2 ≠
      Except.error Error.DuplicateReport := by
  refine ⟨(reachable_inv s h).1, ?_⟩
  intro r wt wa lx ly hcontra
  rcases create_trichotomy s r wt wa lx ly with ⟨_, heq⟩ | ⟨⟨w, hw⟩, heq⟩ | ⟨_, _, heq⟩
  · rw [heq] at hcontra
    exact absurd hcontra (by simp)
  · have hle := (reachable_inv s h).1 (s.wasteDataCount + 1) (by rw [hw]; rfl)
    exact Nat.not_succ_le_self _ hle
  · rw [heq] at hcontra
    exact absurd hcontra (by simp)

theorem duplicate_report_unreachable_witness :
    (create_waste_data stateA 3 2 50 9 9).2 ≠
      Except.error Error.DuplicateReport :=
  (duplicate_report_unreachable stateA reachableA).2 3 2 50 9 9

end WasteManagement
